import Mathlib

/-!
Verification of `init_skill.py` (skill-creator scaffolding script).

The script's single operation `create_skill(name, is_global)` validates a
skill name, resolves a target directory, refuses to overwrite an existing
path, creates a fixed directory layout and writes a templated `SKILL.md`.

We embed the script shallowly:
* strings are Lean `String`s; the Python character-class predicates
  (`str.isalnum`, `str.islower`, `str.title`) are modelled over ASCII,
  which covers every character class the script's contract speaks about
  (lowercase letters, digits, hyphens);
* the file system is a pair of lists: directory paths and (file path,
  content) pairs, where a path is a list of components (absolute, so the
  relative path built by the script is resolved against the current
  working directory, as the OS does at each file-system call);
* I/O failure of `os.makedirs` and of the `SKILL.md` write is modelled by
  two oracle booleans; the source wraps the `makedirs` calls in
  `try/except` (one-line message, `sys.exit(1)`) but performs the
  `open(...)/write` with no handler, so a failing write propagates as an
  uncaught exception (traceback on stderr, interpreter exit status 1);
* `print` + `sys.exit(1)` failures are the `Outcome.errExit` constructor,
  an uncaught exception is `Outcome.uncaughtExc`.
-/

set_option maxRecDepth 16384

/-- `name.replace('-', '')` from line 9 of the script: drop every hyphen. -/
def stripHyphens (s : String) : String :=
  String.mk (s.data.filter (fun c => c ≠ '-'))

/-- `name.replace('-', ' ')` from line 45 of the script. -/
def hyphenToSpace (s : String) : String :=
  String.mk (s.data.map (fun c => if c = '-' then ' ' else c))

/-- Python `str.isalnum` (ASCII fragment): true iff the string is nonempty
and every character is alphanumeric. -/
def pyIsAlnum (s : String) : Bool :=
  !s.data.isEmpty && s.data.all Char.isAlphanum

/-- Python `str.islower` (ASCII fragment): true iff the string contains at
least one cased character and no cased character is uppercase.  In ASCII
the cased characters are exactly the letters. -/
def pyIsLower (s : String) : Bool :=
  s.data.any Char.isAlpha && s.data.all (fun c => !c.isUpper)

/-- The validation predicate of lines 9-11: proceed iff
`name.replace('-','').isalnum()` and `name.islower()` both hold. -/
def validName (name : String) : Bool :=
  pyIsAlnum (stripHyphens name) && pyIsLower name

/-- One step of Python `str.title` (ASCII fragment): a letter that starts
the string or follows a non-cased character is uppercased, a letter that
follows a cased character is lowercased, and every other character is kept;
the boolean records whether the previous character was cased. -/
def pyTitleAux : List Char → Bool → List Char
  | [], _ => []
  | c :: cs, prevCased =>
    if c.isAlpha then
      (if prevCased then c.toLower else c.toUpper) :: pyTitleAux cs true
    else
      c :: pyTitleAux cs false

/-- Python `str.title` (ASCII fragment), as used on line 45. -/
def pyTitle (s : String) : String :=
  String.mk (pyTitleAux s.data false)

/-- A file-system path, as a list of components from the root. -/
abbrev FsPath := List String

/-- The file-system state: existing directories and existing files with
their contents. -/
structure FS where
  dirs : List FsPath
  files : List (FsPath × String)
deriving DecidableEq

/-- `Path.exists()` of line 24: a directory or a file (any type) is at `p`. -/
def pathExists (fs : FS) (p : FsPath) : Bool :=
  fs.dirs.any (fun d => d = p) || fs.files.any (fun e => e.1 = p)

/-- The nonempty initial segments of a path, shortest first. -/
def initialSegs : FsPath → List FsPath
  | [] => []
  | x :: xs => [x] :: (initialSegs xs).map (fun p => x :: p)

/-- `os.makedirs(p, exist_ok=True)`: every missing ancestor of `p` and `p`
itself become directories; pre-existing ones are tolerated.  We record all
nonempty initial segments; duplicates are harmless since the observable
facts are memberships. -/
def mkdirs (fs : FS) (p : FsPath) : FS :=
  { fs with dirs := initialSegs p ++ fs.dirs }

/-- `open(p, "w")` followed by `f.write(content)`: record the file. -/
def writeFile (fs : FS) (p : FsPath) (content : String) : FS :=
  { fs with files := (p, content) :: fs.files }

/-- The error kinds named by the specification.  `fileWriteError` is listed
because the spec names it; the script itself never produces it. -/
inductive ErrKind where
  | invalidName
  | alreadyExists
  | dirCreateError
  | fileWriteError
deriving DecidableEq

/-- How an invocation of the script ends.  `errExit e` is a
`print(one-line message)` on standard output followed by `sys.exit(1)`;
`uncaughtExc` is an exception that escapes `create_skill` (the interpreter
prints a traceback to standard error and exits with status 1). -/
inductive Outcome where
  | ok
  | errExit (e : ErrKind)
  | uncaughtExc
deriving DecidableEq

/-- The process exit status produced by each outcome: `sys.exit(1)` and an
uncaught exception both terminate the interpreter with status 1. -/
def exitCode : Outcome → Nat
  | .ok => 0
  | .errExit _ => 1
  | .uncaughtExc => 1

/-- Whether the failure is reported as a one-line diagnostic on standard
output: true exactly for the `print` + `sys.exit(1)` paths. -/
def oneLineStdoutDiag : Outcome → Bool
  | .errExit _ => true
  | _ => false

/-- Result of one invocation: the final file system and the outcome. -/
structure RunResult where
  fs : FS
  outcome : Outcome
deriving DecidableEq

/-- Lines 14-22: `Path.home()/".config"/"opencode"/"skill"` when global,
else the relative `Path(".opencode")/"skill"` resolved against the current
working directory.  No project-root search is performed. -/
def basePathOf (isGlobal : Bool) (cwd home : FsPath) : FsPath :=
  if isGlobal then home ++ [".config", "opencode", "skill"]
  else cwd ++ [".opencode", "skill"]

/-- Line 22: `skill_path = base_path / name`. -/
def skillPathOf (isGlobal : Bool) (cwd home : FsPath) (name : String) : FsPath :=
  basePathOf isGlobal cwd home ++ [name]

/-- Line 40-57: the f-string rendered into `SKILL.md`. -/
def skill_md_content (name : String) : String :=
  "---\nname: " ++ name ++
  "\ndescription: [TODO: Add a concise description of what this skill does and when to use it]\n---\n\n# "
  ++ pyTitle (hyphenToSpace name) ++
  "\n\n## Overview\n[TODO: Describe the skill's purpose]\n\n## Usage\n[TODO: Describe how to use the skill]\n\n## Resources\n* Scripts are in `scripts/`\n* References are in `references/`\n* Assets are in `assets/`\n"

/-- The whole of `create_skill` (lines 7-65).  `cwd` and `home` are the
current working directory and the user home directory; `dirsFail` and
`writeFail` are oracles telling whether the `os.makedirs` calls
respectively the `SKILL.md` write raise an I/O error.  The `makedirs`
failure is caught (lines 35-37: one-line print, `sys.exit(1)`); the write
failure is not caught anywhere in the script, so it surfaces as an
uncaught exception. -/
def create_skill (name : String) (isGlobal : Bool) (cwd home : FsPath)
    (dirsFail writeFail : Bool) (fs : FS) : RunResult :=
  if !(pyIsAlnum (stripHyphens name)) || !(pyIsLower name) then
    ⟨fs, .errExit .invalidName⟩
  else
    let skill_path := skillPathOf isGlobal cwd home name
    if pathExists fs skill_path then
      ⟨fs, .errExit .alreadyExists⟩
    else if dirsFail then
      ⟨fs, .errExit .dirCreateError⟩
    else
      let fs1 := mkdirs fs (skill_path ++ ["scripts"])
      let fs2 := mkdirs fs1 (skill_path ++ ["references"])
      let fs3 := mkdirs fs2 (skill_path ++ ["assets"])
      if writeFail then
        ⟨fs3, .uncaughtExc⟩
      else
        ⟨writeFile fs3 (skill_path ++ ["SKILL.md"]) (skill_md_content name), .ok⟩

/-- The `SKILL.md` template of section 6 of the specification, with the
`name` and title placeholders as parameters: the spec-side document, to be
compared with the content the script renders. -/
def spec_template (name title : String) : String :=
  "---\nname: " ++ name ++
  "\ndescription: [TODO: Add a concise description of what this skill does and when to use it]\n---\n\n# "
  ++ title ++
  "\n\n## Overview\n[TODO: Describe the skill's purpose]\n\n## Usage\n[TODO: Describe how to use the skill]\n\n## Resources\n* Scripts are in `scripts/`\n* References are in `references/`\n* Assets are in `assets/`\n"

/-- The title derivation as the specification words it: replace hyphens by
spaces, then uppercase the first letter of each space-delimited word and
leave the rest of the word unchanged.  The boolean records whether the
current character starts a word. -/
def specTitleAux : List Char → Bool → List Char
  | [], _ => []
  | c :: cs, atStart =>
    if c = ' ' then ' ' :: specTitleAux cs true
    else (if atStart then c.toUpper else c) :: specTitleAux cs false

/-- Title-casing as the specification words it (C6's parenthetical):
first letter of each space-delimited word uppercased, the rest unchanged. -/
def specTitle (s : String) : String :=
  String.mk (specTitleAux s.data true)

/-- `b` is a proper initial segment of `p`: the entry at `p` lies strictly
below the directory `b`. -/
def isUnder : FsPath → FsPath → Bool
  | [], q => !q.isEmpty
  | _ :: _, [] => false
  | b :: bs, q :: qs => b == q && isUnder bs qs

/-- The four directories the script creates below the base path: the skill
directory itself and its three subdirectories. -/
def theFourDirs (sp : FsPath) : List FsPath :=
  [sp, sp ++ ["scripts"], sp ++ ["references"], sp ++ ["assets"]]

/-! ### Helper lemmas -/

/-- A lowercase ASCII letter is not an uppercase one. -/
theorem lower_not_upper (c : Char) (h : c.isLower = true) : c.isUpper = false := by
  cases hU : c.isUpper
  · rfl
  · exfalso
    simp [Char.isLower, ge_iff_le] at h
    simp [Char.isUpper, ge_iff_le] at hU
    have h97 : 97 ≤ c.val.toNat := UInt32.le_toNat_of_le (by decide) h.1
    have h90 : c.val.toNat ≤ 90 := UInt32.toNat_le_of_le (by decide) hU.2
    omega

/-- An ASCII digit is not an uppercase letter. -/
theorem digit_not_upper (c : Char) (h : c.isDigit = true) : c.isUpper = false := by
  cases hU : c.isUpper
  · rfl
  · exfalso
    simp [Char.isDigit, ge_iff_le] at h
    simp [Char.isUpper, ge_iff_le] at hU
    have h57 : c.val.toNat ≤ 57 := UInt32.toNat_le_of_le (by decide) h.2
    have h65 : 65 ≤ c.val.toNat := UInt32.le_toNat_of_le (by decide) hU.1
    omega

/-- A lowercase letter or a digit is alphanumeric. -/
theorem alnum_of_lower_or_digit (c : Char)
    (h : c.isLower = true ∨ c.isDigit = true) : c.isAlphanum = true := by
  rcases h with h | h <;> simp [Char.isAlphanum, Char.isAlpha, h]

/-- A name made of lowercase letters, digits and hyphens, nonempty once the
hyphens are stripped and holding at least one letter, passes both Python
checks of line 9. -/
theorem validName_of_charset (name : String)
    (hchars : ∀ c ∈ name.data, c.isLower = true ∨ c.isDigit = true ∨ c = '-')
    (hne : (stripHyphens name).data ≠ [])
    (halpha : ∃ c ∈ name.data, c.isAlpha = true) :
    validName name = true := by
  unfold validName pyIsAlnum pyIsLower stripHyphens at *
  simp only [Bool.and_eq_true, Bool.not_eq_true'] at *
  refine ⟨⟨?_, ?_⟩, ?_, ?_⟩
  · rw [List.isEmpty_eq_false]
    exact fun h => hne (by simpa using h)
  · rw [List.all_eq_true]
    intro c hc
    have hmem := List.mem_filter.mp hc
    have hnh : c ≠ '-' := by simpa using hmem.2
    rcases hchars c hmem.1 with h | h | h
    · exact alnum_of_lower_or_digit c (Or.inl h)
    · exact alnum_of_lower_or_digit c (Or.inr h)
    · exact absurd h hnh
  · rw [List.any_eq_true]
    obtain ⟨c, hc, hca⟩ := halpha
    exact ⟨c, hc, hca⟩
  · rw [List.all_eq_true]
    intro c hc
    rcases hchars c hc with h | h | h
    · simp [lower_not_upper c h]
    · simp [digit_not_upper c h]
    · subst h; decide

/-- The guard on line 9 evaluates to `false` exactly on valid names. -/
theorem guard_false_of_valid (name : String) (hvalid : validName name = true) :
    (!(pyIsAlnum (stripHyphens name)) || !(pyIsLower name)) = false := by
  unfold validName at hvalid
  simp only [Bool.and_eq_true] at hvalid
  simp [hvalid.1, hvalid.2]

/-- Splitting the initial segments of an appended path. -/
theorem initialSegs_append (B q : FsPath) :
    initialSegs (B ++ q) = initialSegs B ++ (initialSegs q).map (fun p => B ++ p) := by
  induction B with
  | nil => simp [initialSegs]
  | cons x xs ih =>
    show initialSegs (x :: (xs ++ q)) = _
    rw [initialSegs, ih, List.map_append, List.map_map]
    rfl

/-- The initial segments of `B ++ [a, b]` are those of `B` followed by the
two new ones. -/
theorem initialSegs_append_two (B : FsPath) (a b : String) :
    initialSegs (B ++ [a, b]) = initialSegs B ++ [B ++ [a], B ++ [a, b]] := by
  rw [initialSegs_append]
  simp [initialSegs]

/-- Every member of `initialSegs B` is an initial segment of `B`. -/
theorem mem_initialSegs_exists {p B : FsPath} (h : p ∈ initialSegs B) :
    ∃ t, p ++ t = B := by
  induction B generalizing p with
  | nil => simp [initialSegs] at h
  | cons x xs ih =>
    simp only [initialSegs, List.mem_cons, List.mem_map] at h
    rcases h with h | ⟨q, hq, rfl⟩
    · exact ⟨xs, by simp [h]⟩
    · obtain ⟨t, ht⟩ := ih hq
      exact ⟨t, by simp [ht]⟩

/-- A path never lies strictly under one of its own extensions. -/
theorem isUnder_append_left (p t : FsPath) : isUnder (p ++ t) p = false := by
  induction p with
  | nil => cases t <;> rfl
  | cons x xs ih => simp [isUnder, ih]

/-- A path lies strictly under `B` as soon as it extends `B` nontrivially. -/
theorem isUnder_self_append (B q : FsPath) : isUnder B (B ++ q) = !q.isEmpty := by
  induction B with
  | nil => rfl
  | cons x xs ih => simpa [isUnder] using ih

/-- A nonempty path is among the initial segments of its extensions. -/
theorem self_mem_initialSegs_append (q t : FsPath) (hq : q ≠ []) :
    q ∈ initialSegs (q ++ t) := by
  induction q with
  | nil => exact absurd rfl hq
  | cons x xs ih =>
    cases xs with
    | nil => simp [initialSegs]
    | cons y ys =>
      have hmem := ih (by simp)
      show x :: y :: ys ∈ [x] :: (initialSegs ((y :: ys) ++ t)).map (fun p => x :: p)
      exact List.mem_cons_of_mem _ (List.mem_map_of_mem _ hmem)

/-- On a valid name and a free target, `create_skill` with no I/O failure
reduces to one explicit success state. -/
theorem create_skill_success_eq (name : String) (g : Bool) (cwd home : FsPath)
    (fs : FS) (hvalid : validName name = true)
    (hfree : pathExists fs (skillPathOf g cwd home name) = false) :
    create_skill name g cwd home false false fs =
      ⟨⟨initialSegs (skillPathOf g cwd home name ++ ["assets"]) ++
          (initialSegs (skillPathOf g cwd home name ++ ["references"]) ++
            (initialSegs (skillPathOf g cwd home name ++ ["scripts"]) ++ fs.dirs)),
        (skillPathOf g cwd home name ++ ["SKILL.md"], skill_md_content name) :: fs.files⟩,
       .ok⟩ := by
  rw [create_skill]
  simp [guard_false_of_valid name hvalid, hfree, mkdirs, writeFile]

/-- On a valid name and a free target, a failing `SKILL.md` write reaches
line 59 and raises there. -/
theorem create_skill_writefail_eq (name : String) (g : Bool) (cwd home : FsPath)
    (fs : FS) (hvalid : validName name = true)
    (hfree : pathExists fs (skillPathOf g cwd home name) = false) :
    create_skill name g cwd home false true fs =
      ⟨⟨initialSegs (skillPathOf g cwd home name ++ ["assets"]) ++
          (initialSegs (skillPathOf g cwd home name ++ ["references"]) ++
            (initialSegs (skillPathOf g cwd home name ++ ["scripts"]) ++ fs.dirs)),
        fs.files⟩,
       .uncaughtExc⟩ := by
  rw [create_skill]
  simp [guard_false_of_valid name hvalid, hfree, mkdirs]

/-- The rendered content refines the spec's section-6 template with the
name and the derived title substituted. -/
theorem skill_md_refines_template (name : String) :
    skill_md_content name = spec_template name (pyTitle (hyphenToSpace name)) := rfl

/-- The skill path is never the empty path. -/
theorem skillPathOf_ne_nil (g : Bool) (cwd home : FsPath) (name : String) :
    skillPathOf g cwd home name ≠ [] := by
  unfold skillPathOf
  simp

/-- The skill directory lies strictly under the base path. -/
theorem isUnder_base_skillPath (g : Bool) (cwd home : FsPath) (name : String) :
    isUnder (basePathOf g cwd home) (skillPathOf g cwd home name) = true := by
  unfold skillPathOf
  rw [isUnder_self_append]
  rfl

/-- Each entry directly inside the skill directory lies strictly under the
base path. -/
theorem isUnder_base_skillPath_sub (g : Bool) (cwd home : FsPath) (name x : String) :
    isUnder (basePathOf g cwd home) (skillPathOf g cwd home name ++ [x]) = true := by
  unfold skillPathOf
  rw [List.append_assoc, isUnder_self_append]
  rfl

/-- If nothing lies under the base path, the skill path is free. -/
theorem pathExists_false_of_empty_base (g : Bool) (cwd home : FsPath)
    (name : String) (fs : FS)
    (hempty : ∀ p, isUnder (basePathOf g cwd home) p = true →
      p ∉ fs.dirs ∧ ∀ c : String, (p, c) ∉ fs.files) :
    pathExists fs (skillPathOf g cwd home name) = false := by
  have h := hempty _ (isUnder_base_skillPath g cwd home name)
  unfold pathExists
  rw [Bool.or_eq_false_iff]
  constructor
  · rw [List.any_eq_false]
    intro d hd
    simp only [decide_eq_true_eq]
    intro hdp
    exact h.1 (hdp ▸ hd)
  · rw [List.any_eq_false]
    intro e he
    simp only [decide_eq_true_eq]
    intro hep
    have he2 : (e.1, e.2) ∈ fs.files := by simpa using he
    rw [hep] at he2
    exact h.2 e.2 he2

/-! ### Claims -/

/-- C1 (corrected).  The claim says validation succeeds for every name of
lowercase letters, digits and hyphens, including all-digit names such as
`123`.  It does not: Python's `str.islower` needs at least one cased
character, so `123` is rejected with `InvalidName`. -/
theorem C1_counterexample :
    validName "123" = false ∧
    (create_skill "123" false ["tmp", "proj"] ["home", "u"] false false
      ⟨[], []⟩).outcome = Outcome.errExit ErrKind.invalidName := by decide

/-- C1 (amended).  For every name composed only of lowercase letters,
digits and hyphens, with at least one character left after stripping
hyphens and at least one letter present, the validation step succeeds:
the run never fails with `InvalidName`. -/
theorem C1_amended (name : String) (g df wf : Bool) (cwd home : FsPath) (fs : FS)
    (hchars : ∀ c ∈ name.data, c.isLower = true ∨ c.isDigit = true ∨ c = '-')
    (hne : (stripHyphens name).data ≠ [])
    (halpha : ∃ c ∈ name.data, c.isAlpha = true) :
    validName name = true ∧
    (create_skill name g cwd home df wf fs).outcome ≠
      Outcome.errExit ErrKind.invalidName := by
  have hv := validName_of_charset name hchars hne halpha
  refine ⟨hv, ?_⟩
  rw [create_skill]
  simp only [guard_false_of_valid name hv, Bool.false_eq_true, if_false]
  split
  · simp
  · split
    · simp
    · split
      · simp
      · simp

/-- C1 witness at the concrete name `pdf-export`. -/
theorem C1_witness :
    validName "pdf-export" = true ∧
    (create_skill "pdf-export" false ["tmp", "proj"] ["home", "u"] false false
      ⟨[], []⟩).outcome ≠ Outcome.errExit ErrKind.invalidName :=
  C1_amended "pdf-export" false false false ["tmp", "proj"] ["home", "u"] ⟨[], []⟩
    (by decide) (by decide) (by decide)

/-- C7 (confirmed).  Any name containing an uppercase letter fails the
`islower` check, so the run stops with `InvalidName` and leaves the file
system unchanged, whatever the other characters, the flag, the paths or
the I/O oracles are. -/
theorem C7_upper_rejected (name : String) (g df wf : Bool) (cwd home : FsPath)
    (fs : FS) (h : ∃ c ∈ name.data, c.isUpper = true) :
    create_skill name g cwd home df wf fs = ⟨fs, .errExit .invalidName⟩ := by
  have hL : pyIsLower name = false := by
    unfold pyIsLower
    obtain ⟨c, hc, hcu⟩ := h
    have hall : name.data.all (fun c => !c.isUpper) = false := by
      cases hall : name.data.all (fun c => !c.isUpper)
      · rfl
      · exfalso
        rw [List.all_eq_true] at hall
        have := hall c hc
        rw [hcu] at this
        exact Bool.false_ne_true this
    simp [hall]
  rw [create_skill]
  simp [hL]

/-- C7 witness: `Bad_Name` is rejected and creates nothing, as in the
spec's scenario. -/
theorem C7_witness :
    (∃ c ∈ "Bad_Name".data, c.isUpper = true) ∧
    create_skill "Bad_Name" false ["tmp", "proj"] ["home", "u"] false false
      ⟨[], []⟩ = ⟨⟨[], []⟩, .errExit .invalidName⟩ :=
  ⟨by decide, C7_upper_rejected "Bad_Name" false false false ["tmp", "proj"]
    ["home", "u"] ⟨[], []⟩ (by decide)⟩

/-- C9 (confirmed).  A name with no letter at all — such as `123` or
`1-2-3` — fails the `islower` check (which demands at least one cased
character), so the run stops with `InvalidName` even though every
character is in the permitted set. -/
theorem C9_no_letter_rejected (name : String) (g df wf : Bool)
    (cwd home : FsPath) (fs : FS) (h : ∀ c ∈ name.data, c.isAlpha = false) :
    create_skill name g cwd home df wf fs = ⟨fs, .errExit .invalidName⟩ := by
  have hL : pyIsLower name = false := by
    unfold pyIsLower
    have hany : name.data.any Char.isAlpha = false := by
      cases hany : name.data.any Char.isAlpha
      · rfl
      · exfalso
        rw [List.any_eq_true] at hany
        obtain ⟨c, hc, hca⟩ := hany
        rw [h c hc] at hca
        exact Bool.false_ne_true hca
    simp [hany]
  rw [create_skill]
  simp [hL]

/-- C9 witness: the digits-and-hyphens name `1-2-3` is rejected. -/
theorem C9_witness :
    (∀ c ∈ "1-2-3".data, c.isAlpha = false) ∧
    create_skill "1-2-3" false ["tmp", "proj"] ["home", "u"] false false
      ⟨[], []⟩ = ⟨⟨[], []⟩, .errExit .invalidName⟩ :=
  ⟨by decide, C9_no_letter_rejected "1-2-3" false false false ["tmp", "proj"]
    ["home", "u"] ⟨[], []⟩ (by decide)⟩

/-- C3 (confirmed).  With `global=true` the skill path is
`<home>/.config/opencode/skill/<name>`; with `global=false` it is
`<cwd>/.opencode/skill/<name>` — the relative path is resolved purely
against the current working directory, with no project-root search (the
resolution does not read the file system at all).  On a successful run
the skill directory is created exactly there. -/
theorem C3_path_resolution (name : String) (cwd home : FsPath) (fs : FS)
    (hvalid : validName name = true)
    (hfreeG : pathExists fs (home ++ [".config", "opencode", "skill", name]) = false)
    (hfreeL : pathExists fs (cwd ++ [".opencode", "skill", name]) = false) :
    skillPathOf true cwd home name = home ++ [".config", "opencode", "skill", name] ∧
    skillPathOf false cwd home name = cwd ++ [".opencode", "skill", name] ∧
    (home ++ [".config", "opencode", "skill", name]) ∈
      (create_skill name true cwd home false false fs).fs.dirs ∧
    (cwd ++ [".opencode", "skill", name]) ∈
      (create_skill name false cwd home false false fs).fs.dirs := by
  have heqG : skillPathOf true cwd home name =
      home ++ [".config", "opencode", "skill", name] := by
    simp [skillPathOf, basePathOf]
  have heqL : skillPathOf false cwd home name =
      cwd ++ [".opencode", "skill", name] := by
    simp [skillPathOf, basePathOf]
  refine ⟨heqG, heqL, ?_, ?_⟩
  · rw [create_skill_success_eq name true cwd home fs hvalid (by rw [heqG]; exact hfreeG)]
    rw [← heqG]
    exact List.mem_append_left _
      (self_mem_initialSegs_append _ _ (skillPathOf_ne_nil true cwd home name))
  · rw [create_skill_success_eq name false cwd home fs hvalid (by rw [heqL]; exact hfreeL)]
    rw [← heqL]
    exact List.mem_append_left _
      (self_mem_initialSegs_append _ _ (skillPathOf_ne_nil false cwd home name))

/-- C3 witness at a concrete name, working directory and home. -/
theorem C3_witness :
    validName "alpha" = true ∧
    skillPathOf true ["tmp", "proj"] ["home", "u"] "alpha" =
      ["home", "u", ".config", "opencode", "skill", "alpha"] ∧
    skillPathOf false ["tmp", "proj"] ["home", "u"] "alpha" =
      ["tmp", "proj", ".opencode", "skill", "alpha"] ∧
    ["home", "u", ".config", "opencode", "skill", "alpha"] ∈
      (create_skill "alpha" true ["tmp", "proj"] ["home", "u"] false false
        ⟨[], []⟩).fs.dirs ∧
    ["tmp", "proj", ".opencode", "skill", "alpha"] ∈
      (create_skill "alpha" false ["tmp", "proj"] ["home", "u"] false false
        ⟨[], []⟩).fs.dirs :=
  ⟨by decide,
   (C3_path_resolution "alpha" ["tmp", "proj"] ["home", "u"] ⟨[], []⟩
     (by decide) (by decide) (by decide)).1,
   (C3_path_resolution "alpha" ["tmp", "proj"] ["home", "u"] ⟨[], []⟩
     (by decide) (by decide) (by decide)).2.1,
   (C3_path_resolution "alpha" ["tmp", "proj"] ["home", "u"] ⟨[], []⟩
     (by decide) (by decide) (by decide)).2.2.1,
   (C3_path_resolution "alpha" ["tmp", "proj"] ["home", "u"] ⟨[], []⟩
     (by decide) (by decide) (by decide)).2.2.2⟩

/-- C4 (corrected).  The claim quantifies over every name, but validation
runs before the collision check: with the invalid name `A` and the skill
path already present, the run fails with `InvalidName`, not
`AlreadyExists`. -/
theorem C4_counterexample :
    pathExists ⟨[["tmp", "proj", ".opencode", "skill", "A"]], []⟩
      (skillPathOf false ["tmp", "proj"] ["home", "u"] "A") = true ∧
    create_skill "A" false ["tmp", "proj"] ["home", "u"] false false
      ⟨[["tmp", "proj", ".opencode", "skill", "A"]], []⟩ =
      ⟨⟨[["tmp", "proj", ".opencode", "skill", "A"]], []⟩, .errExit .invalidName⟩ ∧
    Outcome.errExit ErrKind.invalidName ≠ Outcome.errExit ErrKind.alreadyExists := by
  decide

/-- C4 (amended).  For every name that passes validation, if the skill
path already exists (as a directory or a file), the run fails with
`AlreadyExists` and the file system is unchanged, whatever the flag and
the I/O oracles. -/
theorem C4_amended (name : String) (g df wf : Bool) (cwd home : FsPath) (fs : FS)
    (hvalid : validName name = true)
    (hex : pathExists fs (skillPathOf g cwd home name) = true) :
    create_skill name g cwd home df wf fs = ⟨fs, .errExit .alreadyExists⟩ := by
  rw [create_skill]
  simp [guard_false_of_valid name hvalid, hex]

/-- C4 witness: the valid name `taken` whose directory already exists. -/
theorem C4_witness :
    validName "taken" = true ∧
    pathExists ⟨[["tmp", "proj", ".opencode", "skill", "taken"]], []⟩
      (skillPathOf false ["tmp", "proj"] ["home", "u"] "taken") = true ∧
    create_skill "taken" false ["tmp", "proj"] ["home", "u"] true true
      ⟨[["tmp", "proj", ".opencode", "skill", "taken"]], []⟩ =
      ⟨⟨[["tmp", "proj", ".opencode", "skill", "taken"]], []⟩,
       .errExit .alreadyExists⟩ :=
  ⟨by decide, by decide,
   C4_amended "taken" false true true ["tmp", "proj"] ["home", "u"]
     ⟨[["tmp", "proj", ".opencode", "skill", "taken"]], []⟩
     (by decide) (by decide)⟩

/-- C5 (corrected).  The claim says a failing `SKILL.md` write yields a
one-line `FileWriteError` diagnostic on standard output.  The script has
no handler around the write (lines 59-60), so the error surfaces as an
uncaught exception instead. -/
theorem C5_counterexample :
    (create_skill "wskill" false ["tmp", "proj"] ["home", "u"] false true
      ⟨[], []⟩).outcome = Outcome.uncaughtExc ∧
    (create_skill "wskill" false ["tmp", "proj"] ["home", "u"] false true
      ⟨[], []⟩).outcome ≠ Outcome.errExit ErrKind.fileWriteError ∧
    oneLineStdoutDiag (create_skill "wskill" false ["tmp", "proj"] ["home", "u"]
      false true ⟨[], []⟩).outcome = false := by decide

/-- C5 (amended).  If the write of `skillPath/SKILL.md` fails with an I/O
error, the exception propagates uncaught: the process still terminates
with a non-zero status, but no one-line diagnostic is printed to standard
output (the interpreter prints a traceback to standard error). -/
theorem C5_amended (name : String) (g : Bool) (cwd home : FsPath) (fs : FS)
    (hvalid : validName name = true)
    (hfree : pathExists fs (skillPathOf g cwd home name) = false) :
    (create_skill name g cwd home false true fs).outcome = Outcome.uncaughtExc ∧
    exitCode (create_skill name g cwd home false true fs).outcome ≠ 0 ∧
    oneLineStdoutDiag (create_skill name g cwd home false true fs).outcome = false := by
  rw [create_skill_writefail_eq name g cwd home fs hvalid hfree]
  exact ⟨rfl, Nat.one_ne_zero, rfl⟩

/-- C5 witness at a concrete failing write. -/
theorem C5_witness :
    validName "wskill" = true ∧
    (create_skill "wskill" false ["tmp", "proj"] ["home", "u"] false true
      ⟨[], []⟩).outcome = Outcome.uncaughtExc ∧
    exitCode (create_skill "wskill" false ["tmp", "proj"] ["home", "u"] false true
      ⟨[], []⟩).outcome ≠ 0 ∧
    oneLineStdoutDiag (create_skill "wskill" false ["tmp", "proj"] ["home", "u"]
      false true ⟨[], []⟩).outcome = false :=
  ⟨by decide,
   C5_amended "wskill" false ["tmp", "proj"] ["home", "u"] ⟨[], []⟩
     (by decide) (by decide)⟩

/-- C8 (confirmed).  Starting from a free skill path, the first run with a
valid name succeeds and materialises the skill path; any second run with
the same name and scope then fails with `AlreadyExists` and changes
nothing. -/
theorem C8_second_run_fails (name : String) (g df2 wf2 : Bool)
    (cwd home : FsPath) (fs : FS) (hvalid : validName name = true)
    (hfree : pathExists fs (skillPathOf g cwd home name) = false) :
    (create_skill name g cwd home false false fs).outcome = Outcome.ok ∧
    pathExists (create_skill name g cwd home false false fs).fs
      (skillPathOf g cwd home name) = true ∧
    create_skill name g cwd home df2 wf2
      (create_skill name g cwd home false false fs).fs =
      ⟨(create_skill name g cwd home false false fs).fs,
       .errExit .alreadyExists⟩ := by
  have hrun := create_skill_success_eq name g cwd home fs hvalid hfree
  have hmem : skillPathOf g cwd home name ∈
      (create_skill name g cwd home false false fs).fs.dirs := by
    rw [hrun]
    exact List.mem_append_left _
      (self_mem_initialSegs_append _ _ (skillPathOf_ne_nil g cwd home name))
  have hex : pathExists (create_skill name g cwd home false false fs).fs
      (skillPathOf g cwd home name) = true := by
    unfold pathExists
    rw [Bool.or_eq_true]
    left
    rw [List.any_eq_true]
    exact ⟨_, hmem, by simp⟩
  refine ⟨by rw [hrun], hex, ?_⟩
  rw [create_skill]
  simp [guard_false_of_valid name hvalid, hex]

/-- C8 witness: the spec's `dup` scenario. -/
theorem C8_witness :
    validName "dup" = true ∧
    (create_skill "dup" false ["tmp", "proj"] ["home", "u"] false false
      ⟨[], []⟩).outcome = Outcome.ok ∧
    pathExists (create_skill "dup" false ["tmp", "proj"] ["home", "u"] false false
        ⟨[], []⟩).fs
      (skillPathOf false ["tmp", "proj"] ["home", "u"] "dup") = true ∧
    create_skill "dup" false ["tmp", "proj"] ["home", "u"] false false
      (create_skill "dup" false ["tmp", "proj"] ["home", "u"] false false
        ⟨[], []⟩).fs =
      ⟨(create_skill "dup" false ["tmp", "proj"] ["home", "u"] false false
        ⟨[], []⟩).fs, .errExit .alreadyExists⟩ :=
  ⟨by decide,
   C8_second_run_fails "dup" false false false ["tmp", "proj"] ["home", "u"]
     ⟨[], []⟩ (by decide) (by decide)⟩

/-- On any run that ends in success, the file list is the rendered
`SKILL.md` consed onto the initial one. -/
theorem files_of_ok (name : String) (g : Bool) (cwd home : FsPath)
    (df wf : Bool) (fs : FS)
    (h : (create_skill name g cwd home df wf fs).outcome = Outcome.ok) :
    (create_skill name g cwd home df wf fs).fs.files =
      (skillPathOf g cwd home name ++ ["SKILL.md"], skill_md_content name) ::
        fs.files := by
  cases hb1 : (!(pyIsAlnum (stripHyphens name)) || !(pyIsLower name)) with
  | true => rw [create_skill] at h; simp [hb1] at h
  | false =>
    cases hb2 : pathExists fs (skillPathOf g cwd home name) with
    | true => rw [create_skill] at h; simp [hb1, hb2] at h
    | false =>
      cases df with
      | true => rw [create_skill] at h; simp [hb1, hb2] at h
      | false =>
        cases wf with
        | true => rw [create_skill] at h; simp [hb1, hb2] at h
        | false =>
          rw [create_skill]
          simp [hb1, hb2, mkdirs, writeFile]

/-- C10 (confirmed).  The rendered `SKILL.md` content depends on the name
alone: two successful runs with the same name — under any flags, working
directories, home directories and starting states — write byte-identical
contents. -/
theorem C10_content_deterministic (name : String) (g1 g2 d1 w1 d2 w2 : Bool)
    (cwd1 cwd2 home1 home2 : FsPath) (fs1 fs2 : FS)
    (h1 : (create_skill name g1 cwd1 home1 d1 w1 fs1).outcome = Outcome.ok)
    (h2 : (create_skill name g2 cwd2 home2 d2 w2 fs2).outcome = Outcome.ok) :
    (create_skill name g1 cwd1 home1 d1 w1 fs1).fs.files.head?.map Prod.snd =
      (create_skill name g2 cwd2 home2 d2 w2 fs2).fs.files.head?.map Prod.snd := by
  rw [files_of_ok name g1 cwd1 home1 d1 w1 fs1 h1,
      files_of_ok name g2 cwd2 home2 d2 w2 fs2 h2]
  rfl

/-- C10 witness: a global and a local run with different working and home
directories write the same content. -/
theorem C10_witness :
    (create_skill "ten" true ["cwd1"] ["homeA"] false false ⟨[], []⟩).outcome =
      Outcome.ok ∧
    (create_skill "ten" false ["cwd2"] ["homeB"] false false ⟨[], []⟩).outcome =
      Outcome.ok ∧
    (create_skill "ten" true ["cwd1"] ["homeA"] false false
        ⟨[], []⟩).fs.files.head?.map Prod.snd =
      (create_skill "ten" false ["cwd2"] ["homeB"] false false
        ⟨[], []⟩).fs.files.head?.map Prod.snd :=
  ⟨by decide, by decide,
   C10_content_deterministic "ten" true false false false false false
     ["cwd1"] ["cwd2"] ["homeA"] ["homeB"] ⟨[], []⟩ ⟨[], []⟩
     (by decide) (by decide)⟩

/-- C2 (confirmed).  For every valid name, starting from a state with
nothing under the base path (the reading under which "exactly four
directories and one file" is meaningful), the run succeeds and afterwards
the directories strictly under `basePath` are exactly the skill directory
with its `scripts`, `references` and `assets` subdirectories, and the
files strictly under `basePath` are exactly `SKILL.md`, whose content is
the section-6 template with the name and the derived title substituted. -/
theorem C2_layout (name : String) (g : Bool) (cwd home : FsPath) (fs : FS)
    (hvalid : validName name = true)
    (hempty : ∀ p, isUnder (basePathOf g cwd home) p = true →
      p ∉ fs.dirs ∧ ∀ c : String, (p, c) ∉ fs.files) :
    (create_skill name g cwd home false false fs).outcome = Outcome.ok ∧
    (∀ p, (p ∈ (create_skill name g cwd home false false fs).fs.dirs ∧
        isUnder (basePathOf g cwd home) p = true) ↔
        p ∈ theFourDirs (skillPathOf g cwd home name)) ∧
    (∀ p c, ((p, c) ∈ (create_skill name g cwd home false false fs).fs.files ∧
        isUnder (basePathOf g cwd home) p = true) ↔
        (p = skillPathOf g cwd home name ++ ["SKILL.md"] ∧
         c = spec_template name (pyTitle (hyphenToSpace name)))) := by
  have hfree := pathExists_false_of_empty_base g cwd home name fs hempty
  have hrun := create_skill_success_eq name g cwd home fs hvalid hfree
  have hseg : ∀ x : String,
      initialSegs (skillPathOf g cwd home name ++ [x]) =
        initialSegs (basePathOf g cwd home) ++
          [skillPathOf g cwd home name, skillPathOf g cwd home name ++ [x]] := by
    intro x
    have hx : skillPathOf g cwd home name ++ [x] =
        basePathOf g cwd home ++ [name, x] := by
      simp [skillPathOf]
    rw [hx, initialSegs_append_two]
    simp [skillPathOf]
  have hsegB : ∀ p : FsPath, p ∈ initialSegs (basePathOf g cwd home) →
      isUnder (basePathOf g cwd home) p = false := by
    intro p hp
    obtain ⟨t, ht⟩ := mem_initialSegs_exists hp
    have hf := isUnder_append_left p t
    rw [ht] at hf
    exact hf
  have hcase : ∀ (q p : FsPath),
      p ∈ initialSegs (basePathOf g cwd home) ++ [skillPathOf g cwd home name, q] →
      p = skillPathOf g cwd home name ∨ p = q ∨
        isUnder (basePathOf g cwd home) p = false := by
    intro q p hq
    rcases List.mem_append.mp hq with h | h
    · exact Or.inr (Or.inr (hsegB p h))
    · simp only [List.mem_cons, List.not_mem_nil, or_false] at h
      tauto
  refine ⟨by rw [hrun], ?_, ?_⟩
  · intro p
    constructor
    · rintro ⟨hp, hu⟩
      rw [hrun] at hp
      have hfour : p = skillPathOf g cwd home name ∨
          p = skillPathOf g cwd home name ++ ["scripts"] ∨
          p = skillPathOf g cwd home name ++ ["references"] ∨
          p = skillPathOf g cwd home name ++ ["assets"] := by
        rcases List.mem_append.mp hp with h | h
        · rw [hseg "assets"] at h
          rcases hcase _ p h with h | h | h
          · exact Or.inl h
          · exact Or.inr (Or.inr (Or.inr h))
          · rw [h] at hu; exact absurd hu (by decide)
        · rcases List.mem_append.mp h with h | h
          · rw [hseg "references"] at h
            rcases hcase _ p h with h | h | h
            · exact Or.inl h
            · exact Or.inr (Or.inr (Or.inl h))
            · rw [h] at hu; exact absurd hu (by decide)
          · rcases List.mem_append.mp h with h | h
            · rw [hseg "scripts"] at h
              rcases hcase _ p h with h | h | h
              · exact Or.inl h
              · exact Or.inr (Or.inl h)
              · rw [h] at hu; exact absurd hu (by decide)
            · exact absurd h (hempty p hu).1
      simp only [theFourDirs, List.mem_cons, List.not_mem_nil, or_false]
      exact hfour
    · intro hp
      simp only [theFourDirs, List.mem_cons, List.not_mem_nil, or_false] at hp
      rcases hp with h | h | h | h
      · subst h
        refine ⟨?_, isUnder_base_skillPath g cwd home name⟩
        rw [hrun]
        exact List.mem_append_left _
          (self_mem_initialSegs_append _ _ (skillPathOf_ne_nil g cwd home name))
      · subst h
        refine ⟨?_, isUnder_base_skillPath_sub g cwd home name "scripts"⟩
        rw [hrun]
        apply List.mem_append_right
        apply List.mem_append_right
        apply List.mem_append_left
        rw [hseg "scripts"]
        exact List.mem_append_right _ (by simp)
      · subst h
        refine ⟨?_, isUnder_base_skillPath_sub g cwd home name "references"⟩
        rw [hrun]
        apply List.mem_append_right
        apply List.mem_append_left
        rw [hseg "references"]
        exact List.mem_append_right _ (by simp)
      · subst h
        refine ⟨?_, isUnder_base_skillPath_sub g cwd home name "assets"⟩
        rw [hrun]
        apply List.mem_append_left
        rw [hseg "assets"]
        exact List.mem_append_right _ (by simp)
  · intro p c
    constructor
    · rintro ⟨hpc, hu⟩
      rw [hrun] at hpc
      rcases List.mem_cons.mp hpc with h | h
      · have hp : p = skillPathOf g cwd home name ++ ["SKILL.md"] :=
          congrArg Prod.fst h
        have hc : c = skill_md_content name := congrArg Prod.snd h
        exact ⟨hp, by rw [hc, skill_md_refines_template]⟩
      · exact absurd h ((hempty p hu).2 c)
    · rintro ⟨hp, hc⟩
      subst hp
      subst hc
      refine ⟨?_, isUnder_base_skillPath_sub g cwd home name "SKILL.md"⟩
      rw [hrun, ← skill_md_refines_template]
      exact List.mem_cons_self _ _

/-- C2 witness: a concrete local run, checked at the skill directory and
at the `SKILL.md` entry. -/
theorem C2_witness :
    validName "alpha" = true ∧
    (create_skill "alpha" false ["tmp", "proj"] ["home", "u"] false false
      ⟨[], []⟩).outcome = Outcome.ok ∧
    ((["tmp", "proj", ".opencode", "skill", "alpha"] ∈
        (create_skill "alpha" false ["tmp", "proj"] ["home", "u"] false false
          ⟨[], []⟩).fs.dirs ∧
      isUnder (basePathOf false ["tmp", "proj"] ["home", "u"])
        ["tmp", "proj", ".opencode", "skill", "alpha"] = true) ↔
      ["tmp", "proj", ".opencode", "skill", "alpha"] ∈
        theFourDirs (skillPathOf false ["tmp", "proj"] ["home", "u"] "alpha")) ∧
    (((["tmp", "proj", ".opencode", "skill", "alpha", "SKILL.md"],
        spec_template "alpha" (pyTitle (hyphenToSpace "alpha"))) ∈
        (create_skill "alpha" false ["tmp", "proj"] ["home", "u"] false false
          ⟨[], []⟩).fs.files ∧
      isUnder (basePathOf false ["tmp", "proj"] ["home", "u"])
        ["tmp", "proj", ".opencode", "skill", "alpha", "SKILL.md"] = true) ↔
      (["tmp", "proj", ".opencode", "skill", "alpha", "SKILL.md"] =
        skillPathOf false ["tmp", "proj"] ["home", "u"] "alpha" ++ ["SKILL.md"] ∧
       spec_template "alpha" (pyTitle (hyphenToSpace "alpha")) =
        spec_template "alpha" (pyTitle (hyphenToSpace "alpha")))) :=
  ⟨by decide,
   (C2_layout "alpha" false ["tmp", "proj"] ["home", "u"] ⟨[], []⟩ (by decide)
     (fun p _ => ⟨by simp, fun c => by simp⟩)).1,
   (C2_layout "alpha" false ["tmp", "proj"] ["home", "u"] ⟨[], []⟩ (by decide)
     (fun p _ => ⟨by simp, fun c => by simp⟩)).2.1 _,
   (C2_layout "alpha" false ["tmp", "proj"] ["home", "u"] ⟨[], []⟩ (by decide)
     (fun p _ => ⟨by simp, fun c => by simp⟩)).2.2 _ _⟩

/-- C6 (corrected).  The claim's parenthetical defines title-casing as
"first letter of each (space-delimited) word uppercased, the rest
unchanged".  Python's `str.title` instead restarts a word at every
non-letter, so for the valid name `a1b` the script writes the title
`A1B`, while the claim's rule gives `A1b`. -/
theorem C6_counterexample :
    validName "a1b" = true ∧
    specTitle (hyphenToSpace "a1b") = "A1b" ∧
    pyTitle (hyphenToSpace "a1b") = "A1B" ∧
    (create_skill "a1b" false ["tmp", "proj"] ["home", "u"] false false
      ⟨[], []⟩).fs.files =
      [(["tmp", "proj", ".opencode", "skill", "a1b", "SKILL.md"],
        skill_md_content "a1b")] ∧
    skill_md_content "a1b" ≠ spec_template "a1b" (specTitle (hyphenToSpace "a1b")) := by
  decide

/-- C6 (amended).  The title written into `SKILL.md` is the name with
hyphens replaced by spaces and Python title-casing applied: every letter
that starts the string or follows a non-letter is uppercased and every
other letter is lowercased (for a valid name the other letters are
already lowercase, so within purely alphabetic words the rest is
unchanged).  In particular `pdf-export` yields the title `Pdf Export`,
and the rendered document carries `name` verbatim. -/
theorem C6_amended (name : String) (g : Bool) (cwd home : FsPath) (fs : FS)
    (hvalid : validName name = true)
    (hfree : pathExists fs (skillPathOf g cwd home name) = false) :
    (create_skill name g cwd home false false fs).fs.files.head? =
      some (skillPathOf g cwd home name ++ ["SKILL.md"],
        spec_template name (pyTitle (hyphenToSpace name))) ∧
    pyTitle (hyphenToSpace "pdf-export") = "Pdf Export" ∧
    skill_md_content "pdf-export" =
      spec_template "pdf-export" "Pdf Export" := by
  rw [create_skill_success_eq name g cwd home fs hvalid hfree,
    ← skill_md_refines_template]
  exact ⟨rfl, by decide, by decide⟩

/-- C6 witness: the spec's `pdf-export` scenario. -/
theorem C6_witness :
    validName "pdf-export" = true ∧
    (create_skill "pdf-export" false ["tmp", "proj"] ["home", "u"] false false
      ⟨[], []⟩).fs.files.head? =
      some (skillPathOf false ["tmp", "proj"] ["home", "u"] "pdf-export" ++
        ["SKILL.md"],
        spec_template "pdf-export" (pyTitle (hyphenToSpace "pdf-export"))) ∧
    pyTitle (hyphenToSpace "pdf-export") = "Pdf Export" ∧
    skill_md_content "pdf-export" = spec_template "pdf-export" "Pdf Export" :=
  ⟨by decide,
   (C6_amended "pdf-export" false ["tmp", "proj"] ["home", "u"] ⟨[], []⟩
     (by decide) (by decide)).1,
   (C6_amended "pdf-export" false ["tmp", "proj"] ["home", "u"] ⟨[], []⟩
     (by decide) (by decide)).2.1,
   (C6_amended "pdf-export" false ["tmp", "proj"] ["home", "u"] ⟨[], []⟩
     (by decide) (by decide)).2.2⟩
